import Mathlib

/-!
Verification of the data-normalization pipeline of `clean_data.py`
(pa-transplant-equity).

The pipeline operates on pandas DataFrames whose cells are dynamically
typed Python values.  We embed a cell value as `PyVal`: a text cell, a
finite number (ints and floats are collapsed into `ℚ`; the pipeline only
ever compares them for equality and passes them through), the float
`NaN` that `pd.read_csv` produces for a blank cell, and `None`.

A DataFrame is a list of column labels together with a list of rows of
cells (`DF`).  Fallible Python code (a `float(...)` call that can raise
`ValueError`, a missing-column `KeyError`) is embedded in `Except String`.
-/

namespace PA

/-- An exact rational, kept in lowest terms with positive denominator so
that structural equality coincides with numeric equality.  (Mathlib's
`ℚ` arithmetic is `@[irreducible]`, which blocks concrete evaluation by
`decide`; this minimal normalized fraction reduces.)  Python ints and
floats are both embedded here exactly; the pipeline only parses decimal
literals and passes the results through, so no float rounding is
observable in the verified properties. -/
structure Q where
  num : Int
  den : Nat
  deriving DecidableEq, Repr

/-- Build a `Q` in lowest terms from a numerator and positive
denominator. -/
def Q.mk' (n : Int) (d : Nat) : Q :=
  let g := Nat.gcd n.natAbs d
  if g = 0 then ⟨0, 1⟩ else ⟨n / (g : Int), d / g⟩

/-- The integer `n` as a `Q`. -/
def Q.ofInt (n : Int) : Q := ⟨n, 1⟩

/-- `m * 10 ^ e` as a `Q` in lowest terms: the exact value of the
decimal literal with digit string of value `m` and decimal exponent
`e`. -/
def Q.ofDecimal (m : Nat) : Int → Q
  | .ofNat k => ⟨(m * 10 ^ k : Nat), 1⟩
  | .negSucc k => Q.mk' (m : Int) (10 ^ (k + 1))

/-- Negation (keeps lowest terms). -/
def Q.neg (q : Q) : Q := ⟨-q.num, q.den⟩

/-- A dynamically typed pandas cell value. -/
inductive PyVal where
  | pstr (s : String)
  | pnum (q : Q)
  | pnan
  | pnone
  deriving DecidableEq, Repr

deriving instance DecidableEq for Except

/-- `isinstance(x, str)`. -/
def PyVal.isStr : PyVal → Bool
  | .pstr _ => true
  | _ => false

/-- Numeric value of a list of decimal digits, most significant first
(the usual positional reading used by `float`/`int` parsing). -/
def digitsToNat : List Char → Nat
  | [] => 0
  | c :: cs => digitsToNat cs + c.toNat.sub 48 * 10 ^ cs.length

/-- Split a character list into its maximal run of leading decimal
digits and the remainder. -/
def spanDigits : List Char → List Char × List Char
  | [] => ([], [])
  | c :: cs =>
    if c.isDigit then
      let p := spanDigits cs
      (c :: p.1, p.2)
    else ([], c :: cs)

/-- Parse the part of a float literal after the mantissa: either nothing,
or an exponent `e`/`E` with optional sign and at least one digit.
Returns the signed exponent. -/
def parseExponent : List Char → Option Int
  | [] => some 0
  | 'e' :: rest => parseExponentDigits rest
  | 'E' :: rest => parseExponentDigits rest
  | _ => none
where
  /-- optional sign then a nonempty digit run, consuming all input -/
  parseExponentDigits : List Char → Option Int
  | '+' :: rest => parseExponentNat rest
  | '-' :: rest => (parseExponentNat rest).map (fun n => -n)
  | rest => parseExponentNat rest
  /-- a nonempty digit run consuming all input -/
  parseExponentNat : List Char → Option Int
  | rest =>
    let p := spanDigits rest
    if p.1 ≠ [] ∧ p.2 = [] then some (digitsToNat p.1 : Int) else none

/-- Parse an unsigned float literal `digits [. digits] [exponent]`
(at least one digit on one side of the point), as Python's `float`
accepts for finite decimal literals.  The value of
`ip . fp e E` is `digits(ip ++ fp) * 10 ^ (E - |fp|)`. -/
def parseUnsignedFloat : List Char → Option Q
  | cs =>
    let ip := spanDigits cs
    match ip.2 with
    | '.' :: rest =>
      let fp := spanDigits rest
      if ip.1 = [] ∧ fp.1 = [] then none
      else
        (parseExponent fp.2).map (fun e =>
          Q.ofDecimal (digitsToNat (ip.1 ++ fp.1)) (e - (fp.1.length : Int)))
    | rest =>
      if ip.1 = [] then none
      else (parseExponent rest).map (fun e => Q.ofDecimal (digitsToNat ip.1) e)

/-- Model of Python's `float(s)` on an (already stripped) string, for the
finite decimal literals this data contains: optional sign, digits with
optional fractional part and optional exponent.  Returns `none` where
`float` raises `ValueError`. -/
def pyFloat? : List Char → Option Q
  | '+' :: rest => parseUnsignedFloat rest
  | '-' :: rest => (parseUnsignedFloat rest).map Q.neg
  | cs => parseUnsignedFloat cs

/-- Python's `str.strip()`: drop surrounding whitespace. -/
def pyStrip (l : List Char) : List Char :=
  ((l.dropWhile Char.isWhitespace).reverse.dropWhile Char.isWhitespace).reverse

/-- ASCII lowercasing of one character, as `str.lower()` does on this
data (the only use is comparison against the all-ASCII "nan"). -/
def asciiLower (c : Char) : Char :=
  if 65 ≤ c.toNat ∧ c.toNat ≤ 90 then Char.ofNat (c.toNat + 32) else c

/-- `clean_numeric` (clean_data.py lines 28–35): on a string, remove
commas and double quotes (`replace` with the empty string is a filter)
and surrounding whitespace; an empty or case-insensitively "nan" result
becomes `0`; otherwise `float(...)` (which may raise `ValueError`,
hence `Except`).  Any non-string passes through unchanged. -/
def clean_numeric : PyVal → Except String PyVal
  | .pstr s =>
    let clean_str := pyStrip ((s.data.filter (· ≠ ',')).filter (· ≠ '"'))
    if clean_str = [] ∨ clean_str.map asciiLower = ['n', 'a', 'n'] then
      .ok (.pnum (Q.ofInt 0))
    else
      match pyFloat? clean_str with
      | some q => .ok (.pnum q)
      | none => .error ("ValueError: could not convert string to float: " ++ String.mk clean_str)
  | x => .ok x


/-! ### DataFrames -/

/-- A pandas DataFrame: a list of column labels and a list of rows of
cells.  Cells are addressed positionally; a name is resolved to the
index of its first occurrence (the source tables have distinct
labels). -/
structure DF where
  cols : List String
  rows : List (List PyVal)
  deriving DecidableEq, Repr

/-- Index of the first occurrence of a label in a label list. -/
def idxOf? : List String → String → Option Nat
  | [], _ => none
  | c :: cs, name => if c = name then some 0 else (idxOf? cs name).map (· + 1)

/-- Index of a column label. -/
def DF.colIdx? (df : DF) (name : String) : Option Nat :=
  idxOf? df.cols name

/-- `df.drop(columns=[name])`: remove the column and its cells
(identity when the label is absent, matching the guarded call site). -/
def DF.dropCol (df : DF) (name : String) : DF :=
  match df.colIdx? name with
  | some i => ⟨df.cols.eraseIdx i, df.rows.map (fun r => r.eraseIdx i)⟩
  | none => df

/-! ### Race pipeline (`process_race_data`, clean_data.py lines 37–71) -/

/-- `str(c).strip().isdigit()`: nonempty and all decimal digits after
stripping -- the test selecting melt `value_vars` (line 52). -/
def isYearLabel (c : String) : Bool :=
  let t := pyStrip c.data
  !t.isEmpty && t.all Char.isDigit

/-- `pd.to_numeric` on a year-column label: the pipeline only ever
applies it to labels that pass `isYearLabel`, i.e. digit strings
(possibly surrounded by whitespace); anything else raises. -/
def toNumericInt? (s : String) : Option Int :=
  let t := pyStrip s.data
  if !t.isEmpty && t.all Char.isDigit then some (digitsToNat t : Int) else none

/-- One long-form record produced by `melt` before typing: the two id
columns, the originating year column's label and the raw count cell. -/
structure MeltedObs where
  donorType : PyVal
  raceEth : PyVal
  yearLabel : String
  count : PyVal
  deriving DecidableEq, Repr

/-- One cleaned long-form race observation. -/
structure RaceObs where
  donorType : PyVal
  raceEth : PyVal
  year : Int
  count : PyVal
  deriving DecidableEq, Repr

/-- `df.melt(id_vars=['Donor_Type','Race_Ethnicity'], value_vars=...,
var_name='Year', value_name='Count')`: for each year column (in column
order) and each row (in row order), one record pairing the row's two id
cells with that column's label and cell. -/
def meltRace (df : DF) : List MeltedObs :=
  (df.cols.filter isYearLabel).flatMap (fun c =>
    match df.colIdx? c with
    | some i => df.rows.map (fun r =>
        ⟨r.getD 0 .pnan, r.getD 1 .pnan, c, r.getD i .pnan⟩)
    | none => [])

/-- `df_long['Count'].apply(clean_numeric)`: cleans every count cell,
propagating the first `ValueError`. -/
def cleanMelted : List MeltedObs → Except String (List MeltedObs)
  | [] => .ok []
  | m :: ms =>
    match clean_numeric m.count with
    | .error e => .error e
    | .ok c =>
      match cleanMelted ms with
      | .error e => .error e
      | .ok rest => .ok ({ m with count := c } :: rest)

/-- `pd.to_numeric(df_long['Year'])`: parses every year label,
propagating a parse failure. -/
def typeYears : List MeltedObs → Except String (List RaceObs)
  | [] => .ok []
  | m :: ms =>
    match toNumericInt? m.yearLabel with
    | some y =>
      match typeYears ms with
      | .error e => .error e
      | .ok rest => .ok (⟨m.donorType, m.raceEth, y, m.count⟩ :: rest)
    | none => .error ("ValueError: Unable to parse string " ++ m.yearLabel)

/-- The fixed `Race_Ethnicity` synonym map (lines 64–69); unmapped
values pass through. -/
def canonRace (v : PyVal) : PyVal :=
  if v = .pstr "White, Non-Hispanic" then .pstr "White"
  else if v = .pstr "Black, Non-Hispanic" then .pstr "Black"
  else if v = .pstr "Asian, Non-Hispanic" then .pstr "Asian"
  else if v = .pstr "Hispanic/Latino" then .pstr "Hispanic"
  else v

/-- Apply the synonym map to one observation. -/
def applyCanon (o : RaceObs) : RaceObs := { o with raceEth := canonRace o.raceEth }

/-- The aggregate pseudo-category dropped by line 61. -/
def aggregateRace : PyVal := .pstr "All Races/Ethnicities"

/-- Line 44's positional rename: the first two columns become
`Donor_Type` and `Race_Ethnicity` (the source labels are distinct, so
the rename dictionary acts positionally). -/
def renameRaceCols (df : DF) : DF :=
  ⟨"Donor_Type" :: "Race_Ethnicity" :: df.cols.drop 2, df.rows⟩

/-- The frame that is melted: renamed, with any `To Date` column
dropped (lines 44–48). -/
def raceBase (df : DF) : DF := (renameRaceCols df).dropCol "To Date"

/-- The melt `value_vars` (line 52): the digit-labeled columns of the
renamed, `To Date`-free frame. -/
def raceValueVars (df : DF) : List String :=
  (raceBase df).cols.filter isYearLabel

/-- `process_race_data`, starting from the DataFrame that
`pd.read_csv(file_path, header=1)` produced: rename the first two
columns positionally, drop a `To Date` column if present, melt the
digit-labeled columns to long form, clean counts, parse years, drop the
aggregate rows, canonicalize race labels.  Accessing `df.columns[1]` on
a narrower frame raises `IndexError`. -/
def process_race_data (df : DF) : Except String (List RaceObs) :=
  if df.cols.length < 2 then
    .error "IndexError: index 1 is out of bounds"
  else
    match cleanMelted (meltRace (raceBase df)) with
    | .error e => .error e
    | .ok cleaned =>
      match typeYears cleaned with
      | .error e => .error e
      | .ok typed =>
        .ok ((typed.filter (fun o => o.raceEth ≠ aggregateRace)).map applyCanon)

/-! ### Center pipeline (`process_center_data`, clean_data.py lines 73–102) -/

/-- The seven positional column names assigned by
`pd.read_csv(..., skiprows=2, names=cols, header=None)` (line 77). -/
def centerCols : List String :=
  ["Center_Long", "Citizenship", "Payment_Category", "Blank", "Total", "Deceased", "Living"]

/-- Missing-data test used by `ffill`: pandas fills `NaN` and `None`. -/
def PyVal.isNA : PyVal → Bool
  | .pnan => true
  | .pnone => true
  | _ => false

/-- pandas `Series.ffill()`: a missing cell inherits the nearest
preceding non-missing value (threaded through `prev`); leading missing
cells stay as they are. -/
def ffillList : List PyVal → Option PyVal → List PyVal
  | [], _ => []
  | x :: xs, prev =>
    if x.isNA then
      match prev with
      | some v => v :: ffillList xs prev
      | none => x :: ffillList xs prev
    else x :: ffillList xs (some x)

/-- `Series.str.slice(0, 8)`: the first eight characters of a string
cell; under the `.str` accessor a non-string cell becomes NaN. -/
def pySlice8 : PyVal → PyVal
  | .pstr s => .pstr (String.mk (s.data.take 8))
  | _ => .pnan

/-- `Series.str.strip()`: strips a string cell; a non-string cell
becomes NaN. -/
def pyStripVal : PyVal → PyVal
  | .pstr s => .pstr (String.mk (pyStrip s.data))
  | _ => .pnan

/-- The cells of a column (empty when the label is absent). -/
def DF.colVals (df : DF) (name : String) : List PyVal :=
  match df.colIdx? name with
  | some i => df.rows.map (fun r => r.getD i .pnan)
  | none => []

/-- `df[name] = vals`: replace an existing column's cells in place, or
append a new column on the right, as pandas column assignment does. -/
def DF.setCol (df : DF) (name : String) (vals : List PyVal) : DF :=
  match df.colIdx? name with
  | some i => ⟨df.cols, (df.rows.zip vals).map (fun p => p.1.set i p.2)⟩
  | none => ⟨df.cols ++ [name], (df.rows.zip vals).map (fun p => p.1 ++ [p.2])⟩

/-- `df[c].apply(clean_numeric)` cell by cell at column index `i`,
propagating the first `ValueError`. -/
def cleanCells (i : Nat) : List (List PyVal) → Except String (List (List PyVal))
  | [] => .ok []
  | r :: rs =>
    match clean_numeric (r.getD i .pnan) with
    | .error e => .error e
    | .ok v =>
      match cleanCells i rs with
      | .error e => .error e
      | .ok rest => .ok (r.set i v :: rest)

/-- `df[c] = df[c].apply(clean_numeric)`; `KeyError` when the column is
absent (it never is on the pipeline's frames). -/
def DF.cleanCol (df : DF) (name : String) : Except String DF :=
  match df.colIdx? name with
  | some i =>
    match cleanCells i df.rows with
    | .error e => .error e
    | .ok rs => .ok ⟨df.cols, rs⟩
  | none => .error ("KeyError: " ++ name)

/-- `df = df[df[name] != v]`: keep the rows whose cell at the column
differs from `v` (identity when the label is absent; both filtered
columns always exist here). -/
def DF.filterNe (df : DF) (name : String) (v : PyVal) : DF :=
  match df.colIdx? name with
  | some i => ⟨df.cols, df.rows.filter (fun r => r.getD i .pnan ≠ v)⟩
  | none => df

/-- The column indices of a list of labels, `KeyError` on the first
missing one. -/
def colIdxsE (df : DF) : List String → Except String (List Nat)
  | [] => .ok []
  | n :: ns =>
    match df.colIdx? n with
    | none => .error ("KeyError: " ++ n)
    | some i =>
      match colIdxsE df ns with
      | .error e => .error e
      | .ok is => .ok (i :: is)

/-- `df[names]`: the projection onto the listed columns, `KeyError`
when one is missing. -/
def DF.selectCols (df : DF) (names : List String) : Except String DF :=
  match colIdxsE df names with
  | .error e => .error e
  | .ok idxs => .ok ⟨names, df.rows.map (fun r => idxs.map (fun i => r.getD i .pnan))⟩

/-- Lines 96 and 98's use of the mapping frame:
`mapping['Center_Code'] = mapping['Center_Code'].str.strip()` (a
`KeyError` when the key column is absent), then
`mapping[['Center_Code', 'Region', 'Urban']]`. -/
def prepMapping (m : DF) : Except String DF :=
  match m.colIdx? "Center_Code" with
  | none => .error "KeyError: Center_Code"
  | some _ =>
    let m1 := m.setCol "Center_Code" ((m.colVals "Center_Code").map pyStripVal)
    m1.selectCols ["Center_Code", "Region", "Urban"]

/-- Lines 96–98: strip both key columns, then
`df.merge(mapping[[...]], on='Center_Code', how='left')`: each left row
in order yields one output row per matching mapping row (key equality;
pandas matches NaN keys to NaN keys), or a single row padded with NaN
`Region`/`Urban` when nothing matches; the two non-key mapping columns
are appended on the right. -/
def mergeLeft (df : DF) (m : DF) : Except String DF :=
  match prepMapping m with
  | .error e => .error e
  | .ok sub =>
    let df1 := df.setCol "Center_Code" ((df.colVals "Center_Code").map pyStripVal)
    match df1.colIdx? "Center_Code" with
    | some i =>
      .ok ⟨df1.cols ++ ["Region", "Urban"],
           df1.rows.flatMap (fun r =>
             let k := r.getD i .pnan
             let ms := sub.rows.filter (fun mr => mr.getD 0 .pnan = k)
             if ms.isEmpty then [r ++ [.pnan, .pnan]]
             else ms.map (fun mr => r ++ [mr.getD 1 .pnan, mr.getD 2 .pnan]))⟩
    | none => .error "KeyError: Center_Code"

/-- The raw `Center_Long` column (index 0) of the parsed center rows. -/
def centerLongCol (rows : List (List PyVal)) : List PyVal :=
  rows.map (fun r => r.getD 0 .pnan)

/-- The forward-filled `Center_Long` column of line 81:
`df['Center_Long'].ffill()`. -/
def filledCenterLong (rows : List (List PyVal)) : List PyVal :=
  ffillList ((DF.mk centerCols rows).colVals "Center_Long") none

/-- The most recent non-missing value of a list (`none` when every
element is missing): the value forward-fill propagates at the end of
the list. -/
def lastNonNA? : List PyVal → Option PyVal
  | [] => none
  | x :: xs =>
    match lastNonNA? xs with
    | some v => some v
    | none => if x.isNA then none else some x

/-- The single output row a left join with unique mapping keys produces
from one filtered center row: strip the `Center_Code` cell (index 7)
and append the matching mapping row's `Region` and `Urban`, or NaNs
when no mapping row matches.  (Statement-side characterization used by
the join theorems.) -/
def enrichRow (sub : DF) (r : List PyVal) : List PyVal :=
  let k := pyStripVal (r.getD 7 .pnan)
  (r.set 7 k) ++
    (match sub.rows.find? (fun mr => mr.getD 0 .pnan = k) with
     | some mr => [mr.getD 1 .pnan, mr.getD 2 .pnan]
     | none => [.pnan, .pnan])

/-- Lines 76–90 of `process_center_data`, starting from the rows that
`pd.read_csv` produced under the `centerCols` names: forward-fill
`Center_Long`, derive `Center_Code` as its first eight characters,
clean the three numeric columns, and drop the two summary-row
shapes. -/
def centerFiltered (rows : List (List PyVal)) : Except String DF :=
  let df0 : DF := ⟨centerCols, rows⟩
  let df1 := df0.setCol "Center_Long" (filledCenterLong rows)
  let df2 := df1.setCol "Center_Code" ((df1.colVals "Center_Long").map pySlice8)
  match df2.cleanCol "Total" with
  | .error e => .error e
  | .ok df3 =>
    match df3.cleanCol "Deceased" with
    | .error e => .error e
    | .ok df4 =>
      match df4.cleanCol "Living" with
      | .error e => .error e
      | .ok df5 =>
        .ok ((df5.filterNe "Center_Long" (.pstr "All Centers")).filterNe
              "Payment_Category" (.pstr "All Primary Payers"))

/-- Lines 92–101: the optional enrichment join on the filtered frame. -/
def process_center_data (rows : List (List PyVal)) (mapFile : Option DF) :
    Except String DF :=
  match centerFiltered rows with
  | .error e => .error e
  | .ok df7 =>
    match mapFile with
    | some m => mergeLeft df7 m
    | none => .ok df7

/-! ### The processing phase of `main` (clean_data.py lines 113–132) -/

/-- The per-table outputs written by `main`: `none` models "no file
found" or "exception caught and reported", `some` a written output. -/
structure RunResult where
  raceWritten : Option (List RaceObs)
  centerWritten : Option DF
  deriving DecidableEq, Repr

/-- `main`'s processing phase: each optional resolved input is fed to
its own normalizer inside its own `try`/`except`, and the output is
written exactly when that normalizer returned normally. -/
def runBoth (raceFile : Option DF) (centerFile : Option (List (List PyVal)))
    (mapFile : Option DF) : RunResult where
  raceWritten := raceFile.bind (fun df => (process_race_data df).toOption)
  centerWritten := centerFile.bind (fun rs => (process_center_data rs mapFile).toOption)

/-- The textual precondition under which `clean_numeric` cannot raise:
after removing commas and double quotes and stripping whitespace, the
text is empty, case-insensitively "nan", or a well-formed float
literal.  Non-strings always satisfy it. -/
def cleanable : PyVal → Prop
  | .pstr s =>
    let c := pyStrip ((s.data.filter (· ≠ ',')).filter (· ≠ '"'))
    c = [] ∨ c.map asciiLower = ['n', 'a', 'n'] ∨ (pyFloat? c).isSome
  | _ => True

instance : DecidablePred cleanable := by
  intro x
  cases x <;> simp only [cleanable] <;> infer_instance


/-! ### Concrete tables used by witnesses and counterexamples -/

/-- The spec's race-reshape example: two data rows, one aggregate row,
a `To Date` column, year columns 2020 and 2021. -/
def witRaceDF : DF :=
  ⟨["Donor Type", "Race", "To Date", "2020", "2021"],
   [[.pstr "Deceased Donor", .pstr "All Races/Ethnicities", .pnum (Q.ofInt 100),
     .pstr "1,200", .pstr "1,300"],
    [.pstr "Deceased Donor", .pstr "White, Non-Hispanic", .pnum (Q.ofInt 50),
     .pstr "600", .pstr "700"],
    [.pstr "Deceased Donor", .pstr "Black, Non-Hispanic", .pnum (Q.ofInt 30),
     .pstr "NaN", .pstr ""]]⟩

/-- The output the race normalizer produces on `witRaceDF`. -/
def witRaceOut : List RaceObs :=
  [⟨.pstr "Deceased Donor", .pstr "White", 2020, .pnum (Q.ofInt 600)⟩,
   ⟨.pstr "Deceased Donor", .pstr "Black", 2020, .pnum (Q.ofInt 0)⟩,
   ⟨.pstr "Deceased Donor", .pstr "White", 2021, .pnum (Q.ofInt 700)⟩,
   ⟨.pstr "Deceased Donor", .pstr "Black", 2021, .pnum (Q.ofInt 0)⟩]

/-- A race table whose 2020 cell is the text `-5` and whose 2021 cell
is the float NaN of a blank CSV cell. -/
def cexRaceDF : DF :=
  ⟨["Donor Type", "Race", "2020", "2021"],
   [[.pstr "Deceased Donor", .pstr "Other", .pstr "-5", .pnan]]⟩

/-- A race table with the three-digit year column label `123`. -/
def cexYearDF : DF :=
  ⟨["Donor Type", "Race", "123"],
   [[.pstr "Deceased Donor", .pstr "Other", .pstr "7"]]⟩

/-- The spec's forward-fill example: blanks (NaN after CSV reading)
under "Center A", then a "Center B" row. -/
def witCRows : List (List PyVal) :=
  [[.pstr "Center A", .pstr "US Citizen", .pstr "Private", .pnan,
    .pstr "1", .pstr "1", .pstr "0"],
   [.pnan, .pstr "US Citizen", .pstr "Medicare", .pnan,
    .pstr "2", .pstr "1", .pstr "1"],
   [.pnan, .pstr "US Citizen", .pstr "Medicaid", .pnan,
    .pstr "3", .pstr "2", .pstr "1"],
   [.pstr "Center B", .pstr "US Citizen", .pstr "Private", .pnan,
    .pstr "4", .pstr "2", .pstr "2"]]

/-- A center table whose first row has a blank (NaN) `Center_Long`. -/
def cexCRows : List (List PyVal) :=
  [[.pnan, .pstr "US Citizen", .pstr "Private", .pnan,
    .pstr "1", .pstr "1", .pstr "0"]]

/-- A mapping table with one row, keyed `"Center A"` (whitespace to be
stripped), matching the first three filtered rows of `witCRows`. -/
def witMap : DF :=
  ⟨["Center_Code", "Region", "Urban"],
   [[.pstr " Center A ", .pstr "Northeast", .pnum (Q.ofInt 1)]]⟩

/-- The prepared (stripped, projected) mapping frame of `witMap`. -/
def witSub : DF :=
  ⟨["Center_Code", "Region", "Urban"],
   [[.pstr "Center A", .pstr "Northeast", .pnum (Q.ofInt 1)]]⟩

/-- The cleaned center table for `witCRows` without a mapping. -/
def witCOutPlain : DF :=
  ⟨["Center_Long", "Citizenship", "Payment_Category", "Blank",
    "Total", "Deceased", "Living", "Center_Code"],
   [[.pstr "Center A", .pstr "US Citizen", .pstr "Private", .pnan,
     .pnum (Q.ofInt 1), .pnum (Q.ofInt 1), .pnum (Q.ofInt 0), .pstr "Center A"],
    [.pstr "Center A", .pstr "US Citizen", .pstr "Medicare", .pnan,
     .pnum (Q.ofInt 2), .pnum (Q.ofInt 1), .pnum (Q.ofInt 1), .pstr "Center A"],
    [.pstr "Center A", .pstr "US Citizen", .pstr "Medicaid", .pnan,
     .pnum (Q.ofInt 3), .pnum (Q.ofInt 2), .pnum (Q.ofInt 1), .pstr "Center A"],
    [.pstr "Center B", .pstr "US Citizen", .pstr "Private", .pnan,
     .pnum (Q.ofInt 4), .pnum (Q.ofInt 2), .pnum (Q.ofInt 2), .pstr "Center B"]]⟩

/-- The cleaned center table for `witCRows` joined with `witMap`:
"Center A" rows enriched, the unmatched "Center B" row kept with
NaNs. -/
def witCOutMapped : DF :=
  ⟨["Center_Long", "Citizenship", "Payment_Category", "Blank",
    "Total", "Deceased", "Living", "Center_Code", "Region", "Urban"],
   [[.pstr "Center A", .pstr "US Citizen", .pstr "Private", .pnan,
     .pnum (Q.ofInt 1), .pnum (Q.ofInt 1), .pnum (Q.ofInt 0), .pstr "Center A",
     .pstr "Northeast", .pnum (Q.ofInt 1)],
    [.pstr "Center A", .pstr "US Citizen", .pstr "Medicare", .pnan,
     .pnum (Q.ofInt 2), .pnum (Q.ofInt 1), .pnum (Q.ofInt 1), .pstr "Center A",
     .pstr "Northeast", .pnum (Q.ofInt 1)],
    [.pstr "Center A", .pstr "US Citizen", .pstr "Medicaid", .pnan,
     .pnum (Q.ofInt 3), .pnum (Q.ofInt 2), .pnum (Q.ofInt 1), .pstr "Center A",
     .pstr "Northeast", .pnum (Q.ofInt 1)],
    [.pstr "Center B", .pstr "US Citizen", .pstr "Private", .pnan,
     .pnum (Q.ofInt 4), .pnum (Q.ofInt 2), .pnum (Q.ofInt 2), .pstr "Center B",
     .pnan, .pnan]]⟩

/-- A race table whose only count cell cannot be parsed: its
normalization raises. -/
def cexBadRaceDF : DF :=
  ⟨["Donor Type", "Race", "2020"],
   [[.pstr "Deceased Donor", .pstr "Other", .pstr "abc"]]⟩

/-! ### Helper lemmas -/

/-- A non-string cell passes through `clean_numeric` unchanged. -/
theorem clean_numeric_of_not_isStr (x : PyVal) (h : x.isStr = false) :
    clean_numeric x = .ok x := by
  cases x <;> simp_all [clean_numeric, PyVal.isStr]

/-- `clean_numeric` returns a value on every `cleanable` input. -/
theorem clean_numeric_ok_of_cleanable (x : PyVal) (h : cleanable x) :
    ∃ v, clean_numeric x = .ok v := by
  cases x with
  | pstr s =>
    simp only [cleanable] at h
    simp only [clean_numeric]
    split
    · exact ⟨_, rfl⟩
    · rename_i hcond
      rcases h with h | h | h
      · exact absurd (Or.inl h) hcond
      · exact absurd (Or.inr h) hcond
      · rcases Option.isSome_iff_exists.mp h with ⟨q, hq⟩
        rw [hq]
        exact ⟨_, rfl⟩
  | pnum q => exact ⟨_, rfl⟩
  | pnan => exact ⟨_, rfl⟩
  | pnone => exact ⟨_, rfl⟩

/-! ### C1, C9, C10: the numeric-cleaning rule -/

/-- C1: `clean_numeric` satisfies the spec's test vector —
`clean("1,200") = 1200`, `clean("") = 0`, `clean("NaN") = 0`,
`clean('"3,400"') = 3400` — and is the identity on every non-string
value, so applying it twice equals applying it once. -/
theorem C1_clean_numeric_test_vector (x : PyVal) (h : x.isStr = false) :
    clean_numeric (.pstr "1,200") = .ok (.pnum (Q.ofInt 1200)) ∧
    clean_numeric (.pstr "") = .ok (.pnum (Q.ofInt 0)) ∧
    clean_numeric (.pstr "NaN") = .ok (.pnum (Q.ofInt 0)) ∧
    clean_numeric (.pstr "\"3,400\"") = .ok (.pnum (Q.ofInt 3400)) ∧
    clean_numeric x = .ok x ∧
    (clean_numeric x).bind clean_numeric = clean_numeric x := by
  have hx := clean_numeric_of_not_isStr x h
  exact ⟨by decide, by decide, by decide, by decide, hx, by rw [hx, Except.bind, hx]⟩

/-- Witness for C1 at the non-string input `42`. -/
theorem C1_clean_numeric_test_vector_witness :
    (PyVal.pnum (Q.ofInt 42)).isStr = false ∧
    (clean_numeric (.pstr "1,200") = .ok (.pnum (Q.ofInt 1200)) ∧
     clean_numeric (.pstr "") = .ok (.pnum (Q.ofInt 0)) ∧
     clean_numeric (.pstr "NaN") = .ok (.pnum (Q.ofInt 0)) ∧
     clean_numeric (.pstr "\"3,400\"") = .ok (.pnum (Q.ofInt 3400)) ∧
     clean_numeric (.pnum (Q.ofInt 42)) = .ok (.pnum (Q.ofInt 42)) ∧
     (clean_numeric (.pnum (Q.ofInt 42))).bind clean_numeric
       = clean_numeric (.pnum (Q.ofInt 42))) :=
  ⟨by decide, C1_clean_numeric_test_vector (.pnum (Q.ofInt 42)) (by decide)⟩

/-- C9: `clean_numeric` is partial on text — it raises `ValueError` on
`"abc"` (whose cleaned form is nonempty, not "nan", and not a float
literal) — and returns a value on every input satisfying the
`cleanable` precondition. -/
theorem C9_clean_numeric_partial_on_text (x : PyVal) (h : cleanable x) :
    (∃ e, clean_numeric (.pstr "abc") = .error e) ∧
    ∃ v, clean_numeric x = .ok v :=
  ⟨⟨"ValueError: could not convert string to float: abc", by decide⟩,
   clean_numeric_ok_of_cleanable x h⟩

/-- Witness for C9 at the cleanable textual input `"1,200"`. -/
theorem C9_clean_numeric_partial_on_text_witness :
    cleanable (.pstr "1,200") ∧
    ((∃ e, clean_numeric (.pstr "abc") = .error e) ∧
     ∃ v, clean_numeric (.pstr "1,200") = .ok v) :=
  ⟨by decide, C9_clean_numeric_partial_on_text (.pstr "1,200") (by decide)⟩

/-- C10: every non-string input — in particular the float NaN a CSV
reader produces for a blank cell — passes through `clean_numeric`
unchanged; NaN comes back as NaN, not as `0`. -/
theorem C10_clean_numeric_nan_passthrough (x : PyVal) (h : x.isStr = false) :
    clean_numeric x = .ok x ∧
    clean_numeric .pnan = .ok .pnan ∧
    (Except.ok PyVal.pnan : Except String PyVal) ≠ .ok (.pnum (Q.ofInt 0)) :=
  ⟨clean_numeric_of_not_isStr x h, by decide, by decide⟩

/-- Witness for C10 at the NaN input itself. -/
theorem C10_clean_numeric_nan_passthrough_witness :
    PyVal.pnan.isStr = false ∧
    (clean_numeric .pnan = .ok .pnan ∧
     clean_numeric .pnan = .ok .pnan ∧
     (Except.ok PyVal.pnan : Except String PyVal) ≠ .ok (.pnum (Q.ofInt 0))) :=
  ⟨by decide, C10_clean_numeric_nan_passthrough .pnan (by decide)⟩

/-! ### Race pipeline lemmas -/

/-- A label that occurs in the list has an index. -/
theorem idxOf?_isSome_of_mem : ∀ {l : List String} {c : String}, c ∈ l →
    ∃ i, idxOf? l c = some i := by
  intro l
  induction l with
  | nil => intro c h; cases h
  | cons a t ih =>
    intro c h
    by_cases hac : a = c
    · exact ⟨0, by simp [idxOf?, hac]⟩
    · rcases List.mem_cons.mp h with rfl | hm
      · exact absurd rfl hac
      · rcases ih hm with ⟨j, hj⟩
        exact ⟨j + 1, by simp [idxOf?, hac, hj]⟩

/-- Inversion of `process_race_data` on success. -/
theorem process_race_data_ok {df : DF} {out : List RaceObs}
    (h : process_race_data df = .ok out) :
    2 ≤ df.cols.length ∧
    ∃ cleaned typed,
      cleanMelted (meltRace (raceBase df)) = .ok cleaned ∧
      typeYears cleaned = .ok typed ∧
      out = (typed.filter (fun o => o.raceEth ≠ aggregateRace)).map applyCanon := by
  unfold process_race_data at h
  split at h
  · cases h
  · rename_i hlen
    refine ⟨by omega, ?_⟩
    split at h
    · cases h
    · rename_i cleaned hc
      split at h
      · cases h
      · rename_i typed ht
        cases h
        exact ⟨cleaned, typed, hc, ht, rfl⟩

/-- On success `cleanMelted` preserves everything but the count, which
becomes the cleaning of the source cell. -/
theorem cleanMelted_forall₂ : ∀ {l l' : List MeltedObs}, cleanMelted l = .ok l' →
    List.Forall₂ (fun m m' => m'.donorType = m.donorType ∧ m'.raceEth = m.raceEth ∧
      m'.yearLabel = m.yearLabel ∧ clean_numeric m.count = .ok m'.count) l l'
  | [], _, h => by
    unfold cleanMelted at h
    cases h
    exact .nil
  | m :: ms, l', h => by
    unfold cleanMelted at h
    cases hc : clean_numeric m.count with
    | error e => rw [hc] at h; cases h
    | ok v =>
      rw [hc] at h
      cases hr : cleanMelted ms with
      | error e => rw [hr] at h; cases h
      | ok rest =>
        rw [hr] at h
        cases h
        exact .cons ⟨rfl, rfl, rfl, by rw [hc]⟩ (cleanMelted_forall₂ hr)

/-- On success `typeYears` keeps the id cells and count and parses each
year label. -/
theorem typeYears_forall₂ : ∀ {l : List MeltedObs} {t : List RaceObs},
    typeYears l = .ok t →
    List.Forall₂ (fun m o => o.donorType = m.donorType ∧ o.raceEth = m.raceEth ∧
      toNumericInt? m.yearLabel = some o.year ∧ o.count = m.count) l t
  | [], _, h => by
    unfold typeYears at h
    cases h
    exact .nil
  | m :: ms, t, h => by
    unfold typeYears at h
    cases hy : toNumericInt? m.yearLabel with
    | none => rw [hy] at h; cases h
    | some y =>
      rw [hy] at h
      cases hr : typeYears ms with
      | error e => rw [hr] at h; cases h
      | ok rest =>
        rw [hr] at h
        cases h
        exact .cons ⟨rfl, rfl, by rw [hy], rfl⟩ (typeYears_forall₂ hr)

/-- Componentwise equal images of two `Forall₂`-related lists. -/
theorem forall₂_map_eq {α β γ : Type} {R : α → β → Prop} {f : α → γ} {g : β → γ}
    {l₁ : List α} {l₂ : List β} (h : List.Forall₂ R l₁ l₂)
    (hfg : ∀ a b, R a b → g b = f a) : l₂.map g = l₁.map f := by
  induction h with
  | nil => rfl
  | cons hab _ ih => simp [hfg _ _ hab, ih]

/-- Every element on the right of a `Forall₂` has a related source on
the left. -/
theorem forall₂_exists_left {α β : Type} {R : α → β → Prop}
    {l₁ : List α} {l₂ : List β} (h : List.Forall₂ R l₁ l₂) :
    ∀ b ∈ l₂, ∃ a ∈ l₁, R a b := by
  induction h with
  | nil => intro b hb; cases hb
  | cons hab _ ih =>
    intro b hb
    rcases List.mem_cons.mp hb with rfl | hb
    · exact ⟨_, List.mem_cons_self _ _, hab⟩
    · rcases ih b hb with ⟨a, ha, hr⟩
      exact ⟨a, List.mem_cons_of_mem _ ha, hr⟩

/-- Length of a filtered `flatMap` whose pieces all contribute the same
filtered length. -/
theorem length_filter_flatMap {α β : Type} (L : List α) (f : α → List β)
    (p : β → Bool) (n : Nat) (hf : ∀ a ∈ L, ((f a).filter p).length = n) :
    ((L.flatMap f).filter p).length = L.length * n := by
  induction L with
  | nil => simp
  | cons a L ih =>
    rw [List.flatMap_cons, List.filter_append, List.length_append,
      hf a (List.mem_cons_self a L),
      ih (fun x hx => hf x (List.mem_cons_of_mem a hx)),
      List.length_cons, Nat.succ_mul]
    omega

/-- Each year column contributes one melted record per row; filtering on
the race cell therefore counts `value_vars × matching rows`. -/
theorem meltRace_filter_length (df : DF) :
    ((meltRace df).filter (fun m => m.raceEth ≠ aggregateRace)).length =
      (df.cols.filter isYearLabel).length *
        ((df.rows.filter (fun r => r.getD 1 .pnan ≠ aggregateRace)).length) := by
  unfold meltRace
  refine length_filter_flatMap _ _ _ _ ?_
  intro c hc
  rcases idxOf?_isSome_of_mem (List.mem_filter.mp hc).1 with ⟨i, hi⟩
  have hi' : DF.colIdx? df c = some i := hi
  simp only [hi']
  rw [List.filter_map, List.length_map]
  rfl

/-- The year label of every melted record is one of the digit-labeled
columns. -/
theorem meltRace_yearLabel_mem {df : DF} {m : MeltedObs} (h : m ∈ meltRace df) :
    m.yearLabel ∈ df.cols.filter isYearLabel := by
  unfold meltRace at h
  rcases List.mem_flatMap.mp h with ⟨c, hc, hm⟩
  cases hidx : df.colIdx? c with
  | some i =>
    rw [hidx] at hm
    rcases List.mem_map.mp hm with ⟨r, _, rfl⟩
    exact hc
  | none => rw [hidx] at hm; cases hm

/-- Dropping a column at index `j + 2` does not change the cell at
index 1. -/
theorem getD1_eraseIdx_two (r : List PyVal) (j : Nat) :
    (r.eraseIdx (j + 2)).getD 1 .pnan = r.getD 1 .pnan := by
  match r with
  | [] => rfl
  | [a] => rfl
  | a :: b :: t => rfl

/-- The rows of the melted base frame are the raw rows, possibly with
the `To Date` cell (at an index ≥ 2) dropped. -/
theorem raceBase_rows_cases (df : DF) :
    (raceBase df).rows = df.rows ∨
    ∃ j, (raceBase df).rows = df.rows.map (fun r => r.eraseIdx (j + 2)) := by
  unfold raceBase DF.dropCol
  cases hidx : (renameRaceCols df).colIdx? "To Date" with
  | none => left; rfl
  | some i =>
    right
    unfold renameRaceCols DF.colIdx? at hidx
    simp [idxOf?] at hidx
    cases hj : idxOf? (df.cols.drop 2) "To Date" with
    | none => rw [hj] at hidx; simp at hidx
    | some j =>
      rw [hj] at hidx
      simp at hidx
      refine ⟨j, ?_⟩
      simp only [renameRaceCols]
      show df.rows.map (fun r => r.eraseIdx i) = _
      rw [show i = j + 2 by omega]

/-- Counting rows by the aggregate test on the `Race_Ethnicity` cell is
the same before and after the rename and `To Date` drop. -/
theorem raceBase_countP (df : DF) :
    ((raceBase df).rows.filter (fun r => r.getD 1 .pnan ≠ aggregateRace)).length =
      df.rows.countP (fun r => r.getD 1 .pnan ≠ aggregateRace) := by
  rw [← List.countP_eq_length_filter]
  rcases raceBase_rows_cases df with h | ⟨j, h⟩
  · rw [h]
  · rw [h, List.countP_map]
    exact List.countP_congr (fun r _ => by
      show decide ((r.eraseIdx (j + 2)).getD 1 .pnan ≠ aggregateRace) = true ↔
        decide (r.getD 1 .pnan ≠ aggregateRace) = true
      rw [getD1_eraseIdx_two])

/-- `Forall₂`-related lists have equal counts under pointwise-agreeing
predicates. -/
theorem forall₂_countP {α β : Type} {R : α → β → Prop} {l₁ : List α} {l₂ : List β}
    (h : List.Forall₂ R l₁ l₂) (p : α → Bool) (q : β → Bool)
    (hpq : ∀ a b, R a b → p a = q b) : l₁.countP p = l₂.countP q := by
  induction h with
  | nil => rfl
  | cons hab _ ih => rw [List.countP_cons, List.countP_cons, ih, hpq _ _ hab]

/-- The synonym map never produces the aggregate pseudo-category. -/
theorem canonRace_ne_aggregate {v : PyVal} (h : v ≠ aggregateRace) :
    canonRace v ≠ aggregateRace := by
  unfold canonRace
  split_ifs <;> first | exact h | decide

/-- A successfully parsed year label is a non-negative integer. -/
theorem toNumericInt?_nonneg {s : String} {y : Int}
    (h : toNumericInt? s = some y) : 0 ≤ y := by
  simp only [toNumericInt?] at h
  split at h
  · cases h
    exact Int.natCast_nonneg _
  · cases h

/-! ### C2, C3, C4: the race reshape -/

/-- C2: on success the race normalizer emits exactly one observation
per (data row, year column) pair, where rows are counted by their
`Race_Ethnicity` cell differing from the aggregate pseudo-category and
the year columns are exactly the remaining columns whose trimmed label
is all decimal digits; no emitted observation carries the aggregate
label; every `Year` comes from one of the year columns, and `To Date`
is never one of them. -/
theorem C2_race_reshape_observations (df : DF) (out : List RaceObs)
    (h : process_race_data df = .ok out) :
    out.length = (raceValueVars df).length *
      df.rows.countP (fun r => r.getD 1 .pnan ≠ aggregateRace) ∧
    (∀ o ∈ out, o.raceEth ≠ aggregateRace) ∧
    (∀ o ∈ out, ∃ c ∈ raceValueVars df, toNumericInt? c = some o.year) ∧
    "To Date" ∉ raceValueVars df := by
  rcases process_race_data_ok h with ⟨-, cleaned, typed, hc, ht, hout⟩
  have hcf := cleanMelted_forall₂ hc
  have htf := typeYears_forall₂ ht
  refine ⟨?_, ?_, ?_, ?_⟩
  · subst hout
    rw [List.length_map, ← List.countP_eq_length_filter]
    have e1 : cleaned.countP (fun m => decide (m.raceEth ≠ aggregateRace))
        = typed.countP (fun o => decide (o.raceEth ≠ aggregateRace)) :=
      forall₂_countP htf _ _ (fun a b hab => by rw [hab.2.1])
    have e2 : (meltRace (raceBase df)).countP
          (fun m => decide (m.raceEth ≠ aggregateRace))
        = cleaned.countP (fun m => decide (m.raceEth ≠ aggregateRace)) :=
      forall₂_countP hcf _ _ (fun a b hab => by rw [hab.2.1])
    rw [← e1, ← e2]
    rw [List.countP_eq_length_filter, meltRace_filter_length, raceBase_countP]
    rfl
  · intro o ho
    subst hout
    rcases List.mem_map.mp ho with ⟨o', ho', rfl⟩
    exact canonRace_ne_aggregate (of_decide_eq_true (List.mem_filter.mp ho').2)
  · intro o ho
    subst hout
    rcases List.mem_map.mp ho with ⟨o', ho', rfl⟩
    rcases forall₂_exists_left htf o' (List.mem_filter.mp ho').1 with ⟨m', hm', hrel⟩
    rcases forall₂_exists_left hcf m' hm' with ⟨m, hm, hrel2⟩
    refine ⟨m.yearLabel, meltRace_yearLabel_mem hm, ?_⟩
    rw [← hrel2.2.2.1]
    exact hrel.2.2.1
  · intro hmem
    exact absurd (List.mem_filter.mp hmem).2 (by decide)

/-- Witness for C2: the spec's 3-row example with year columns 2020 and
2021 yields exactly `2 × 2 = 4` observations. -/
theorem C2_race_reshape_observations_witness :
    process_race_data witRaceDF = .ok witRaceOut ∧
    witRaceOut.length = 4 ∧
    (witRaceOut.length = (raceValueVars witRaceDF).length *
       witRaceDF.rows.countP (fun r => r.getD 1 .pnan ≠ aggregateRace) ∧
     (∀ o ∈ witRaceOut, o.raceEth ≠ aggregateRace) ∧
     (∀ o ∈ witRaceOut, ∃ c ∈ raceValueVars witRaceDF, toNumericInt? c = some o.year) ∧
     "To Date" ∉ raceValueVars witRaceDF) :=
  ⟨by decide, by decide,
   C2_race_reshape_observations witRaceDF witRaceOut (by decide)⟩

/-- C3 as stated is false on the code: the count of a textual `-5`
cell is negative, and the count of a blank cell (float NaN after CSV
reading) is NaN, not `0`. -/
theorem C3_counterexample_negative_and_nan_count :
    process_race_data cexRaceDF =
      .ok [⟨.pstr "Deceased Donor", .pstr "Other", 2020, .pnum (Q.ofInt (-5))⟩,
           ⟨.pstr "Deceased Donor", .pstr "Other", 2021, .pnan⟩] ∧
    (Q.ofInt (-5)).num < 0 ∧
    PyVal.pnan ≠ .pnum (Q.ofInt 0) := by decide

/-- C3 (amended): every emitted Count is exactly `clean_numeric` of its
source cell: a textual cell cleaning to empty or "nan" gives `0`; other
text parses as a float (possibly negative); a non-text cell — including
the float NaN of a blank CSV cell — passes through unchanged. -/
theorem C3_amended_count_is_cleaning (df : DF) (out : List RaceObs)
    (h : process_race_data df = .ok out) :
    (∀ o ∈ out, ∃ m ∈ meltRace (raceBase df), clean_numeric m.count = .ok o.count) ∧
    (∀ s, (pyStrip ((s.data.filter (· ≠ ',')).filter (· ≠ '"')) = [] ∨
           (pyStrip ((s.data.filter (· ≠ ',')).filter (· ≠ '"'))).map asciiLower
             = ['n', 'a', 'n']) →
       clean_numeric (.pstr s) = .ok (.pnum (Q.ofInt 0))) ∧
    clean_numeric .pnan = .ok .pnan := by
  refine ⟨?_, ?_, by decide⟩
  · intro o ho
    rcases process_race_data_ok h with ⟨-, cleaned, typed, hc, ht, hout⟩
    subst hout
    rcases List.mem_map.mp ho with ⟨o', ho', rfl⟩
    rcases forall₂_exists_left (typeYears_forall₂ ht) o'
      (List.mem_filter.mp ho').1 with ⟨m', hm', hrel⟩
    rcases forall₂_exists_left (cleanMelted_forall₂ hc) m' hm' with ⟨m, hm, hrel2⟩
    refine ⟨m, hm, ?_⟩
    rw [show (applyCanon o').count = o'.count from rfl, hrel.2.2.2]
    exact hrel2.2.2.2
  · intro s hs
    simp only [clean_numeric]
    rw [if_pos hs]

/-- Witness for C3 (amended) on the spec's example table. -/
theorem C3_amended_count_is_cleaning_witness :
    process_race_data witRaceDF = .ok witRaceOut ∧
    ((∀ o ∈ witRaceOut, ∃ m ∈ meltRace (raceBase witRaceDF),
        clean_numeric m.count = .ok o.count) ∧
     (∀ s, (pyStrip ((s.data.filter (· ≠ ',')).filter (· ≠ '"')) = [] ∨
            (pyStrip ((s.data.filter (· ≠ ',')).filter (· ≠ '"'))).map asciiLower
              = ['n', 'a', 'n']) →
        clean_numeric (.pstr s) = .ok (.pnum (Q.ofInt 0))) ∧
     clean_numeric .pnan = .ok .pnan) :=
  ⟨by decide, C3_amended_count_is_cleaning witRaceDF witRaceOut (by decide)⟩

/-- C4 as stated is false on the code: a table with the all-digit
column label `123` yields the observation year `123`, which is not a
4-digit integer. -/
theorem C4_counterexample_three_digit_year :
    process_race_data cexYearDF =
      .ok [⟨.pstr "Deceased Donor", .pstr "Other", 123, .pnum (Q.ofInt 7)⟩] ∧
    ¬(1000 ≤ (123 : Int)) := by decide

/-- C4 (amended): every Year is a non-negative integer parsed from an
original column label whose trimmed form is all decimal digits — hence
a 4-digit integer exactly when that label is a 4-digit one. -/
theorem C4_amended_year_from_digit_label (df : DF) (out : List RaceObs)
    (h : process_race_data df = .ok out) :
    ∀ o ∈ out, ∃ c ∈ raceValueVars df, isYearLabel c = true ∧
      toNumericInt? c = some o.year ∧ 0 ≤ o.year := by
  intro o ho
  rcases process_race_data_ok h with ⟨-, cleaned, typed, hc, ht, hout⟩
  subst hout
  rcases List.mem_map.mp ho with ⟨o', ho', rfl⟩
  rcases forall₂_exists_left (typeYears_forall₂ ht) o'
    (List.mem_filter.mp ho').1 with ⟨m', hm', hrel⟩
  rcases forall₂_exists_left (cleanMelted_forall₂ hc) m' hm' with ⟨m, hm, hrel2⟩
  have hmem := meltRace_yearLabel_mem hm
  have hy : toNumericInt? m.yearLabel = some o'.year := by
    rw [← hrel2.2.2.1]
    exact hrel.2.2.1
  exact ⟨m.yearLabel, hmem, (List.mem_filter.mp hmem).2, hy, toNumericInt?_nonneg hy⟩

/-- Witness for C4 (amended) on the spec's example table. -/
theorem C4_amended_year_from_digit_label_witness :
    process_race_data witRaceDF = .ok witRaceOut ∧
    (∀ o ∈ witRaceOut, ∃ c ∈ raceValueVars witRaceDF, isYearLabel c = true ∧
       toNumericInt? c = some o.year ∧ 0 ≤ o.year) :=
  ⟨by decide, C4_amended_year_from_digit_label witRaceDF witRaceOut (by decide)⟩

/-! ### Forward-fill lemmas -/

/-- Unfolding `ffillList` at a missing head cell. -/
theorem ffillList_cons_NA (x : PyVal) (xs : List PyVal) (prev : Option PyVal)
    (hx : x.isNA = true) :
    ffillList (x :: xs) prev =
      (match prev with | some v => v | none => x) :: ffillList xs prev := by
  cases prev <;> simp [ffillList, hx]

/-- Unfolding `ffillList` at a present head cell. -/
theorem ffillList_cons_ok (x : PyVal) (xs : List PyVal) (prev : Option PyVal)
    (hx : x.isNA = false) :
    ffillList (x :: xs) prev = x :: ffillList xs (some x) := by
  simp [ffillList, hx]

/-- `lastNonNA?` returns `none` exactly when every element is
missing. -/
theorem lastNonNA?_eq_none_iff : ∀ (l : List PyVal),
    lastNonNA? l = none ↔ ∀ x ∈ l, x.isNA = true
  | [] => by simp [lastNonNA?]
  | x :: xs => by
    simp only [lastNonNA?]
    cases hl : lastNonNA? xs with
    | some w =>
      constructor
      · intro h; cases h
      · intro h
        have hnone := (lastNonNA?_eq_none_iff xs).mpr
          (fun y hy => h y (List.mem_cons_of_mem _ hy))
        rw [hl] at hnone
        cases hnone
    | none =>
      constructor
      · intro h y hy
        rcases List.mem_cons.mp hy with rfl | hy
        · by_cases hx : y.isNA = true
          · exact hx
          · rw [if_neg hx] at h; cases h
        · exact (lastNonNA?_eq_none_iff xs).mp hl y hy
      · intro h
        rw [if_pos (h x (List.mem_cons_self x xs))]

/-- The value `lastNonNA?` reports is never missing. -/
theorem lastNonNA?_not_NA : ∀ {l : List PyVal} {v : PyVal},
    lastNonNA? l = some v → v.isNA = false
  | [], _, h => by cases h
  | x :: xs, v, h => by
    simp only [lastNonNA?] at h
    cases hl : lastNonNA? xs with
    | some w =>
      rw [hl] at h
      cases h
      exact lastNonNA?_not_NA hl
    | none =>
      rw [hl] at h
      by_cases hx : x.isNA = true
      · rw [if_pos hx] at h; cases h
      · rw [if_neg hx] at h
        cases h
        simpa using hx

/-- An in-range element at index `j ≤ i` belongs to the length-`i+1`
prefix. -/
theorem getD_mem_take : ∀ (l : List PyVal) (i j : Nat), j ≤ i → j < l.length →
    l.getD j .pnan ∈ l.take (i + 1)
  | [], _, j, _, hj => by simp at hj
  | x :: xs, i, 0, _, _ => by simp
  | x :: xs, i, j + 1, hji, hj => by
    cases i with
    | zero => omega
    | succ m =>
      rw [List.take_succ_cons, List.getD_cons_succ]
      exact List.mem_cons_of_mem _
        (getD_mem_take xs m j (by omega) (by simpa using hj))

/-- When the whole prefix is missing, forward-fill writes the incoming
value at position `i`. -/
theorem ffillList_getD_none : ∀ (l : List PyVal) (v : PyVal) (i : Nat),
    i < l.length → lastNonNA? (l.take (i + 1)) = none →
    (ffillList l (some v)).getD i .pnan = v
  | [], _, i, hi, _ => by simp at hi
  | x :: xs, v, 0, _, hlast => by
    rw [List.take_succ_cons, List.take_zero] at hlast
    simp only [lastNonNA?] at hlast
    by_cases hx : x.isNA = true
    · rw [ffillList_cons_NA x xs _ hx]
      rfl
    · rw [if_neg hx] at hlast; cases hlast
  | x :: xs, v, i + 1, hi, hlast => by
    rw [List.take_succ_cons] at hlast
    simp only [lastNonNA?] at hlast
    have hi' : i < xs.length := by simpa using hi
    cases hl2 : lastNonNA? (xs.take (i + 1)) with
    | some w => rw [hl2] at hlast; cases hlast
    | none =>
      rw [hl2] at hlast
      by_cases hx : x.isNA = true
      · rw [ffillList_cons_NA x xs _ hx, List.getD_cons_succ]
        exact ffillList_getD_none xs v i hi' hl2
      · rw [if_neg hx] at hlast; cases hlast

/-- Forward-fill puts the most recent non-missing prefix value at each
position, whatever the incoming `prev`. -/
theorem ffillList_getD_some : ∀ (l : List PyVal) (prev : Option PyVal) (i : Nat)
    (v : PyVal), i < l.length → lastNonNA? (l.take (i + 1)) = some v →
    (ffillList l prev).getD i .pnan = v
  | [], _, i, _, hi, _ => by simp at hi
  | x :: xs, prev, 0, v, _, hlast => by
    rw [List.take_succ_cons, List.take_zero] at hlast
    simp only [lastNonNA?] at hlast
    by_cases hx : x.isNA = true
    · rw [if_pos hx] at hlast; cases hlast
    · rw [if_neg hx] at hlast
      cases hlast
      rw [ffillList_cons_ok x xs prev (by simpa using hx)]
      rfl
  | x :: xs, prev, i + 1, v, hi, hlast => by
    rw [List.take_succ_cons] at hlast
    simp only [lastNonNA?] at hlast
    have hi' : i < xs.length := by simpa using hi
    cases hl2 : lastNonNA? (xs.take (i + 1)) with
    | some w =>
      rw [hl2] at hlast
      cases hlast
      by_cases hx : x.isNA = true
      · rw [ffillList_cons_NA x xs prev hx, List.getD_cons_succ]
        exact ffillList_getD_some xs prev i v hi' hl2
      · rw [ffillList_cons_ok x xs prev (by simpa using hx), List.getD_cons_succ]
        exact ffillList_getD_some xs (some x) i v hi' hl2
    | none =>
      rw [hl2] at hlast
      by_cases hx : x.isNA = true
      · rw [if_pos hx] at hlast; cases hlast
      · rw [if_neg hx] at hlast
        cases hlast
        rw [ffillList_cons_ok x xs prev (by simpa using hx), List.getD_cons_succ]
        exact ffillList_getD_none xs x i hi' hl2

/-! ### C5: center forward-fill -/

/-- C5 as stated is false on the code: when the first row's
`Center_Long` is blank (float NaN after CSV reading) there is no
preceding value to inherit, forward-fill leaves the cell missing, and
the blank survives into the written output row. -/
theorem C5_counterexample_leading_blank :
    process_center_data cexCRows none =
      .ok ⟨centerCols ++ ["Center_Code"],
        [[.pnan, .pstr "US Citizen", .pstr "Private", .pnan,
          .pnum (Q.ofInt 1), .pnum (Q.ofInt 1), .pnum (Q.ofInt 0), .pnan]]⟩ ∧
    filledCenterLong cexCRows = [.pnan] ∧
    PyVal.pnan.isNA = true := by decide

/-- C5 (amended): after the forward-fill step, any row at or below a
non-blank `Center_Long` holds the nearest preceding non-blank value,
which is itself non-blank; rows above the first non-blank value keep
their blank cell. -/
theorem C5_amended_forward_fill (rows : List (List PyVal)) (i : Nat)
    (hi : i < rows.length)
    (h : ∃ j, j ≤ i ∧ ((centerLongCol rows).getD j .pnan).isNA = false) :
    ∃ v, lastNonNA? ((centerLongCol rows).take (i + 1)) = some v ∧
      (filledCenterLong rows).getD i .pnan = v ∧ v.isNA = false := by
  rcases h with ⟨j, hj, hna⟩
  have hjlen : j < (centerLongCol rows).length := by
    by_contra hcon
    rw [List.getD_eq_default _ _ (by omega)] at hna
    exact absurd hna (by decide)
  have hmem := getD_mem_take (centerLongCol rows) i j hj hjlen
  cases hlast : lastNonNA? ((centerLongCol rows).take (i + 1)) with
  | none =>
    exfalso
    have h1 := (lastNonNA?_eq_none_iff _).mp hlast _ hmem
    rw [hna] at h1
    cases h1
  | some v =>
    refine ⟨v, rfl, ?_, lastNonNA?_not_NA hlast⟩
    have hilen : i < (centerLongCol rows).length := by
      rw [centerLongCol, List.length_map]; exact hi
    exact ffillList_getD_some (centerLongCol rows) none i v hilen hlast

/-- Witness for C5 (amended) at row 2 of the spec's four-row example;
the final conjunct is the spec's full expected fill. -/
theorem C5_amended_forward_fill_witness :
    (2 < witCRows.length ∧
     (∃ j, j ≤ 2 ∧ ((centerLongCol witCRows).getD j .pnan).isNA = false)) ∧
    (∃ v, lastNonNA? ((centerLongCol witCRows).take (2 + 1)) = some v ∧
       (filledCenterLong witCRows).getD 2 .pnan = v ∧ v.isNA = false) ∧
    filledCenterLong witCRows =
      [.pstr "Center A", .pstr "Center A", .pstr "Center A", .pstr "Center B"] :=
  ⟨⟨by decide, ⟨0, by decide, by decide⟩⟩,
   C5_amended_forward_fill witCRows 2 (by decide) ⟨0, by decide, by decide⟩,
   by decide⟩

/-! ### Center pipeline lemmas -/

/-- `filterNe` never changes the column labels. -/
theorem filterNe_cols (df : DF) (name : String) (v : PyVal) :
    (DF.filterNe df name v).cols = df.cols := by
  unfold DF.filterNe
  split <;> rfl

/-- `cleanCol` never changes the column labels. -/
theorem cleanCol_ok_cols {df : DF} {name : String} {df' : DF}
    (h : DF.cleanCol df name = .ok df') : df'.cols = df.cols := by
  unfold DF.cleanCol at h
  split at h
  · split at h
    · cases h
    · cases h; rfl
  · cases h

/-- Assigning into an existing column keeps the labels. -/
theorem setCol_cols_of_idx_some {df : DF} {name : String} {i : Nat}
    (h : df.colIdx? name = some i) (vals : List PyVal) :
    (df.setCol name vals).cols = df.cols := by
  simp only [DF.setCol, h]

/-- The filtered center frame always carries the seven fixed labels
plus the derived `Center_Code`. -/
theorem centerFiltered_cols {rows : List (List PyVal)} {df7 : DF}
    (h : centerFiltered rows = .ok df7) :
    df7.cols = centerCols ++ ["Center_Code"] := by
  simp only [centerFiltered] at h
  split at h
  · cases h
  · rename_i df3 h3
    split at h
    · cases h
    · rename_i df4 h4
      split at h
      · cases h
      · rename_i df5 h5
        cases h
        rw [filterNe_cols, filterNe_cols, cleanCol_ok_cols h5, cleanCol_ok_cols h4,
          cleanCol_ok_cols h3]
        rfl

/-- Without a mapping file the center pipeline is exactly the filtered
frame. -/
theorem process_center_none (rows : List (List PyVal)) :
    process_center_data rows none = centerFiltered rows := by
  unfold process_center_data
  cases h : centerFiltered rows with
  | error e => rfl
  | ok df7 => rfl

/-- Inversion of the with-mapping pipeline. -/
theorem process_center_some_ok {rows : List (List PyVal)} {m out : DF}
    (h : process_center_data rows (some m) = .ok out) :
    ∃ df7, centerFiltered rows = .ok df7 ∧ mergeLeft df7 m = .ok out := by
  unfold process_center_data at h
  split at h
  · cases h
  · rename_i df7 h7
    exact ⟨df7, h7, h⟩

/-- Zipping a list with its own image and mapping is a plain map. -/
theorem zip_map_self {α β γ : Type} : ∀ (l : List α) (f : α → β) (g : α × β → γ),
    (l.zip (l.map f)).map g = l.map (fun x => g (x, f x))
  | [], _, _ => rfl
  | a :: t, f, g => by
    rw [List.map_cons, List.zip_cons_cons, List.map_cons, List.map_cons,
      zip_map_self t f g]

/-- A `flatMap` over a mapped list whose pieces are all singletons is a
map. -/
theorem flatMap_map_singleton {α β γ : Type} : ∀ (l : List α) (h : α → β)
    (f : β → List γ) (g : α → γ), (∀ a ∈ l, f (h a) = [g a]) →
    (l.map h).flatMap f = l.map g
  | [], _, _, _, _ => rfl
  | a :: t, h, f, g, hf => by
    rw [List.map_cons, List.flatMap_cons, hf a (List.mem_cons_self a t),
      List.map_cons, flatMap_map_singleton t h f g
        (fun x hx => hf x (List.mem_cons_of_mem a hx))]
    rfl

/-- Writing the stripped cell back into position `i` leaves exactly the
stripped cell there (the out-of-range case strips NaN to NaN). -/
theorem getD_set_strip (r : List PyVal) (i : Nat) :
    (r.set i (pyStripVal (r.getD i .pnan))).getD i .pnan
      = pyStripVal (r.getD i .pnan) := by
  by_cases hi : i < r.length
  · rw [List.getD_eq_getElem?_getD, List.getElem?_set_self hi, Option.getD_some]
  · rw [List.set_eq_of_length_le (by omega)]
    have h0 : r.getD i .pnan = .pnan := List.getD_eq_default _ _ (by omega)
    rw [h0]
    rfl

/-- Filtering on a key that occurs at most once (the mapped keys are
`Nodup`) gives the singleton or empty list that `find?` describes. -/
theorem filter_key_unique {α κ : Type} [DecidableEq κ] : ∀ (l : List α) (f : α → κ),
    (l.map f).Nodup → ∀ (k : κ),
    l.filter (fun x => f x = k) =
      (match l.find? (fun x => f x = k) with
       | some x => [x]
       | none => [])
  | [], _, _, _ => rfl
  | a :: t, f, hnd, k => by
    rw [List.map_cons, List.nodup_cons] at hnd
    by_cases hk : f a = k
    · have ht : t.filter (fun x => decide (f x = k)) = [] := by
        rw [List.filter_eq_nil_iff]
        intro x hx hpx
        have hfx : f x = k := of_decide_eq_true hpx
        apply hnd.1
        have hmem := List.mem_map_of_mem f hx
        rw [hfx, ← hk] at hmem
        exact hmem
      simp [List.filter_cons, List.find?_cons, hk, ht]
    · simp [List.filter_cons, List.find?_cons, hk]
      exact filter_key_unique t f hnd.2 k

/-- One left-join row under unique mapping keys. -/
theorem mergeRow_unique (sub : DF)
    (hu : (sub.rows.map (fun mr => mr.getD 0 .pnan)).Nodup)
    (r' : List PyVal) (k : PyVal) :
    (if (sub.rows.filter (fun mr => mr.getD 0 .pnan = k)).isEmpty
     then [r' ++ [PyVal.pnan, PyVal.pnan]]
     else (sub.rows.filter (fun mr => mr.getD 0 .pnan = k)).map
            (fun mr => r' ++ [mr.getD 1 .pnan, mr.getD 2 .pnan]))
    = [r' ++ (match sub.rows.find? (fun mr => mr.getD 0 .pnan = k) with
              | some mr => [mr.getD 1 .pnan, mr.getD 2 .pnan]
              | none => [PyVal.pnan, PyVal.pnan])] := by
  rw [filter_key_unique sub.rows (fun mr => mr.getD 0 .pnan) hu k]
  cases sub.rows.find? (fun mr => mr.getD 0 .pnan = k) with
  | some mr => rfl
  | none => rfl

/-- The enrichment join under unique (stripped) mapping keys: the
columns gain `Region` and `Urban`, and each filtered row becomes
exactly its `enrichRow` image. -/
theorem mergeLeft_unique_spec {df7 m sub out : DF}
    (hcols : df7.cols = centerCols ++ ["Center_Code"])
    (hsub : prepMapping m = .ok sub)
    (hu : (sub.rows.map (fun mr => mr.getD 0 .pnan)).Nodup)
    (hml : mergeLeft df7 m = .ok out) :
    out.cols = centerCols ++ ["Center_Code", "Region", "Urban"] ∧
    out.rows = df7.rows.map (enrichRow sub) := by
  have hc7 : df7.colIdx? "Center_Code" = some 7 := by
    unfold DF.colIdx?
    rw [hcols]
    decide
  simp only [mergeLeft] at hml
  split at hml
  · cases hml
  · rename_i sub' hpm
    rw [hsub] at hpm
    cases hpm
    have hidx : (df7.setCol "Center_Code"
        ((df7.colVals "Center_Code").map pyStripVal)).colIdx? "Center_Code"
        = some 7 := by
      unfold DF.colIdx?
      rw [setCol_cols_of_idx_some hc7, hcols]
      decide
    split at hml
    · rename_i i hi
      rw [hidx] at hi
      cases hi
      cases hml
      constructor
      · show (df7.setCol "Center_Code"
            ((df7.colVals "Center_Code").map pyStripVal)).cols ++ ["Region", "Urban"] = _
        rw [setCol_cols_of_idx_some hc7, hcols, List.append_assoc]
        rfl
      · have hrows1 : (df7.setCol "Center_Code"
            ((df7.colVals "Center_Code").map pyStripVal)).rows
            = df7.rows.map (fun r => r.set 7 (pyStripVal (r.getD 7 .pnan))) := by
          simp only [DF.setCol, DF.colVals, hc7, List.map_map]
          exact zip_map_self df7.rows _ _
        show (df7.setCol "Center_Code"
            ((df7.colVals "Center_Code").map pyStripVal)).rows.flatMap _ = _
        rw [hrows1]
        refine flatMap_map_singleton df7.rows _ _ _ ?_
        intro r hr
        show (if (sub.rows.filter (fun mr => mr.getD 0 .pnan =
                (r.set 7 (pyStripVal (r.getD 7 .pnan))).getD 7 .pnan)).isEmpty
          then _ else _) = _
        rw [getD_set_strip, mergeRow_unique sub hu]
        rfl
    · rename_i hi
      rw [hidx] at hi
      cases hi

/-! ### C6, C7: the center enrichment join and output columns -/

/-- C6: with a mapping table supplied and (after trimming) at most one
row per Center_Code, the enrichment is a left join on trimmed
Center_Code: exactly one output row per filtered input row; a row whose
trimmed code matches the mapping receives that mapping row's Region and
Urban; a row with no match is kept, with NaN Region and Urban, rather
than dropped (`enrichRow` says exactly this per row). -/
theorem C6_mapping_left_join (rows : List (List PyVal)) (m sub out bout : DF)
    (hsub : prepMapping m = .ok sub)
    (hu : (sub.rows.map (fun mr => mr.getD 0 .pnan)).Nodup)
    (h : process_center_data rows (some m) = .ok out)
    (hb : process_center_data rows none = .ok bout) :
    out.rows.length = bout.rows.length ∧
    out.rows = bout.rows.map (enrichRow sub) := by
  rcases process_center_some_ok h with ⟨df7, h7, hml⟩
  rw [process_center_none, h7] at hb
  cases hb
  have hspec := mergeLeft_unique_spec (centerFiltered_cols h7) hsub hu hml
  exact ⟨by rw [hspec.2, List.length_map], hspec.2⟩

/-- Witness for C6: the spec's mapping row enriches the matching rows
and leaves the unmatched center with NaNs. -/
theorem C6_mapping_left_join_witness :
    (prepMapping witMap = .ok witSub ∧
     (witSub.rows.map (fun mr => mr.getD 0 .pnan)).Nodup ∧
     process_center_data witCRows (some witMap) = .ok witCOutMapped ∧
     process_center_data witCRows none = .ok witCOutPlain) ∧
    (witCOutMapped.rows.length = witCOutPlain.rows.length ∧
     witCOutMapped.rows = witCOutPlain.rows.map (enrichRow witSub)) :=
  ⟨⟨by decide, by decide, by decide, by decide⟩,
   C6_mapping_left_join witCRows witMap witSub witCOutMapped witCOutPlain
     (by decide) (by decide) (by decide) (by decide)⟩

/-- C7 as stated is false on the code: the cleaned table keeps the
unused `Blank` column, and with no mapping supplied the `Region` and
`Urban` columns are absent entirely rather than present and null. -/
theorem C7_counterexample_columns :
    process_center_data witCRows none = .ok witCOutPlain ∧
    "Blank" ∈ witCOutPlain.cols ∧
    "Region" ∉ witCOutPlain.cols ∧
    "Urban" ∉ witCOutPlain.cols := by decide

/-- C7 (amended): the cleaned center table's columns are `Center_Long,
Citizenship, Payment_Category, Blank, Total, Deceased, Living,
Center_Code`, with `Region` and `Urban` appended exactly when a mapping
table is supplied; without a mapping those two columns are absent, and
supplying a (one-row-per-trimmed-code) mapping never changes the row
count. -/
theorem C7_amended_center_columns (rows : List (List PyVal)) (m sub out bout : DF)
    (hsub : prepMapping m = .ok sub)
    (hu : (sub.rows.map (fun mr => mr.getD 0 .pnan)).Nodup)
    (h : process_center_data rows (some m) = .ok out)
    (hb : process_center_data rows none = .ok bout) :
    out.cols = centerCols ++ ["Center_Code", "Region", "Urban"] ∧
    bout.cols = centerCols ++ ["Center_Code"] ∧
    "Region" ∉ bout.cols ∧ "Urban" ∉ bout.cols ∧
    out.rows.length = bout.rows.length := by
  rcases process_center_some_ok h with ⟨df7, h7, hml⟩
  rw [process_center_none, h7] at hb
  cases hb
  have hspec := mergeLeft_unique_spec (centerFiltered_cols h7) hsub hu hml
  have hbc := centerFiltered_cols h7
  refine ⟨hspec.1, hbc, ?_, ?_, by rw [hspec.2, List.length_map]⟩
  · rw [hbc]; decide
  · rw [hbc]; decide

/-- Witness for C7 (amended) on the spec's example center table. -/
theorem C7_amended_center_columns_witness :
    (prepMapping witMap = .ok witSub ∧
     (witSub.rows.map (fun mr => mr.getD 0 .pnan)).Nodup ∧
     process_center_data witCRows (some witMap) = .ok witCOutMapped ∧
     process_center_data witCRows none = .ok witCOutPlain) ∧
    (witCOutMapped.cols = centerCols ++ ["Center_Code", "Region", "Urban"] ∧
     witCOutPlain.cols = centerCols ++ ["Center_Code"] ∧
     "Region" ∉ witCOutPlain.cols ∧ "Urban" ∉ witCOutPlain.cols ∧
     witCOutMapped.rows.length = witCOutPlain.rows.length) :=
  ⟨⟨by decide, by decide, by decide, by decide⟩,
   C7_amended_center_columns witCRows witMap witSub witCOutMapped witCOutPlain
     (by decide) (by decide) (by decide) (by decide)⟩

/-! ### C8: per-table error isolation in `main` -/

/-- C8: each table's pipeline runs in its own `try`/`except`, so the
written center output is a function of the center input and mapping
only, the written race output a function of the race input only; in
particular a raising race table never prevents the center output from
being written (and vice versa, the failed side is merely reported and
skipped). -/
theorem C8_per_table_error_isolation
    (r r' : Option DF) (c c' : Option (List (List PyVal))) (mp mp' : Option DF)
    (df : DF) (e : String) (crows : List (List PyVal)) (cout : DF)
    (hre : process_race_data df = .error e)
    (hc : process_center_data crows mp = .ok cout) :
    (runBoth r c mp).centerWritten = (runBoth r' c mp).centerWritten ∧
    (runBoth r c mp).raceWritten = (runBoth r c' mp').raceWritten ∧
    (runBoth (some df) (some crows) mp).centerWritten = some cout ∧
    (runBoth (some df) (some crows) mp).raceWritten = none := by
  refine ⟨rfl, rfl, ?_, ?_⟩
  · show (process_center_data crows mp).toOption = some cout
    rw [hc]
    rfl
  · show (process_race_data df).toOption = none
    rw [hre]
    rfl

/-- Witness for C8: a race table that raises `ValueError` alongside the
spec's well-formed center table — the center output is still
written. -/
theorem C8_per_table_error_isolation_witness :
    (process_race_data cexBadRaceDF =
       .error "ValueError: could not convert string to float: abc" ∧
     process_center_data witCRows none = .ok witCOutPlain) ∧
    ((runBoth none (some witCRows) none).centerWritten
       = (runBoth (some cexBadRaceDF) (some witCRows) none).centerWritten ∧
     (runBoth none (some witCRows) none).raceWritten
       = (runBoth none none (some witMap)).raceWritten ∧
     (runBoth (some cexBadRaceDF) (some witCRows) none).centerWritten
       = some witCOutPlain ∧
     (runBoth (some cexBadRaceDF) (some witCRows) none).raceWritten = none) :=
  ⟨⟨by decide, by decide⟩,
   C8_per_table_error_isolation none (some cexBadRaceDF) (some witCRows) none
     none (some witMap) cexBadRaceDF
     "ValueError: could not convert string to float: abc" witCRows witCOutPlain
     (by decide) (by decide)⟩

end PA
